import Mathlib

/-!
Verification of the terminal runner game in `minigame.py`.

The Python source is shallowly embedded: Python floats are modelled as exact
rationals, Python `int(...)` (truncation toward zero) as `pyint`, Python
`round(...)` (round half to even) as `pyround`, and the random
source as an explicit stream of draw values (`Entropy`) together with
call counters (`ri` for `rng.random()`, `ii` for `rng.randint`) carried in
the generator state.
-/

namespace MoonBuggy

/-- Frames per second (`FPS = 30`). -/
def FPS : ℚ := 30

/-- Gravity constant (`GRAVITY = 22.0`). -/
def GRAVITY : ℚ := 22

/-- Jump takeoff velocity (`JUMP_VEL = 10.0`). -/
def JUMP_VEL : ℚ := 10

/-- Pit spawn rate (`PIT_RATE = 0.010`). -/
def PIT_RATE : ℚ := 10/1000

/-- Cone spawn rate (`CONE_RATE = 0.014`). -/
def CONE_RATE : ℚ := 14/1000

/-- Enemy spawn rate (`ENEMY_RATE = 0.010`). -/
def ENEMY_RATE : ℚ := 10/1000

/-- Step event rate (`STEP_RATE = 0.012`). -/
def STEP_RATE : ℚ := 12/1000

/-- Step up bias (`STEP_UP_BIAS = 0.55`). -/
def STEP_UP_BIAS : ℚ := 55/100

/-- Maximum elevation steps above base (`MAX_ELEV = 10`). -/
def MAX_ELEV : ℤ := 10

/-- Minimum pit width (`PIT_MIN = 3`). -/
def PIT_MIN : ℤ := 3

/-- Maximum pit width (`PIT_MAX = 9`). -/
def PIT_MAX : ℤ := 9

/-- Hazard-free seconds at run start (`SAFE_START_SEC = 2.0`). -/
def SAFE_START_SEC : ℚ := 2

/-- Initial scroll speed (`START_SPEED = 1.0`). -/
def START_SPEED : ℚ := 1

/-- Post-pit edge protection window (`EDGE_BUFFER = 4`). -/
def EDGE_BUFFER : ℤ := 4

/-- Spacing factor between hazards in jump lengths (`SPACING_FACTOR = 1.2`). -/
def SPACING_FACTOR : ℚ := 12/10

/-- Score for killing an enemy (`ENEMY_SCORE = 25`). -/
def ENEMY_SCORE : ℤ := 25

/-- Width of the enemy ASCII art bounding box (`ENEMY_WIDTH = 9`). -/
def ENEMY_WIDTH : ℤ := 9

/-- Height of the enemy ASCII art bounding box (`ENEMY_HEIGHT = 3`). -/
def ENEMY_HEIGHT : ℤ := 3

/-- Python `int(x)` on a float: truncation toward zero. -/
def pyint (q : ℚ) : ℤ := if 0 ≤ q then ⌊q⌋ else ⌈q⌉

/-- Python `round(x)` on a float: round half to even. -/
def pyround (q : ℚ) : ℤ :=
  if q - ⌊q⌋ < 1/2 then ⌊q⌋
  else if 1/2 < q - ⌊q⌋ then ⌊q⌋ + 1
  else if ⌊q⌋ % 2 = 0 then ⌊q⌋ else ⌊q⌋ + 1

/-- `max_jump_columns` from the source: horizontal columns coverable during a
full jump arc at the given scroll speed, with a 0.9 safety margin and a hard
minimum of 3. -/
def max_jump_columns (speed_cols_per_frame : ℚ) : ℤ :=
  max 3 (pyint (speed_cols_per_frame * FPS * (2 * (JUMP_VEL / GRAVITY)) * (9/10)))

/-- `min_spacing` from the source: `int(max_jump_columns(speed) * SPACING_FACTOR)`. -/
def min_spacing (speed_cols_per_frame : ℚ) : ℤ :=
  pyint ((max_jump_columns speed_cols_per_frame : ℚ) * SPACING_FACTOR)

/-- The surface kind of a track column: letter G ground, blank pit, letter C cone. -/
inductive Cell where
  | G : Cell
  | P : Cell
  | C : Cell
deriving DecidableEq, Repr

/-- The random source of the generator, modelled as explicit streams: `randoms i`
is the result of the i-th call to `rng.random()` and `ints j` is the raw
entropy behind the j-th call to `rng.randint`. -/
structure Entropy where
  randoms : ℕ → ℚ
  ints : ℕ → ℕ

/-- State of `TrackGen`, plus the two random-call counters `ri` (number of
`rng.random()` calls made so far) and `ii` (number of `rng.randint` calls). -/
structure TrackGen where
  warmup_cols : ℤ
  cooldown : ℤ
  pit_left : ℤ
  edge_protect : ℤ
  elev : ℤ
  max_elev : ℤ
  ri : ℕ
  ii : ℕ
deriving DecidableEq, Repr

/-- `rng.randint(lo, hi)`: a uniform draw from `[lo, hi]`, modelled as
`lo + entropy mod (hi - lo + 1)`. -/
def randint (ent : Entropy) (i : ℕ) (lo hi : ℤ) : ℤ :=
  lo + (ent.ints i : ℤ) % (hi - lo + 1)

/-- `TrackGen._step_event`: choose up or down within bounds (forced up at
elevation 0, forced down at or above `max_elev`, otherwise a biased draw)
and move the elevation by exactly one. -/
def step_event (ent : Entropy) (g : TrackGen) : TrackGen :=
  if g.elev = 0 then { g with elev := g.elev + 1 }
  else if g.max_elev ≤ g.elev then { g with elev := g.elev - 1 }
  else if ent.randoms g.ri < STEP_UP_BIAS then { g with elev := g.elev + 1, ri := g.ri + 1 }
  else { g with elev := g.elev - 1, ri := g.ri + 1 }

/-- The pit-width cap computed in `next_cell`:
`pit_cap = max(PIT_MIN, min(PIT_MAX, J - 2))`. -/
def pit_cap_of (speed : ℚ) : ℤ :=
  max PIT_MIN (min PIT_MAX (max_jump_columns speed - 2))

/-- `TrackGen.next_cell`: one generated column. Returns the `(cell, elev)`
pair, the optional enemy-spawn marker, and the successor generator state. -/
def next_cell (ent : Entropy) (g : TrackGen) (speed : ℚ) :
    (Cell × ℤ) × Option Unit × TrackGen :=
  if 0 < g.warmup_cols then
    ((Cell.G, g.elev), none, { g with warmup_cols := g.warmup_cols - 1 })
  else if 0 < g.pit_left then
    if g.pit_left - 1 = 0 then
      ((Cell.P, g.elev), none,
        { g with pit_left := g.pit_left - 1, cooldown := min_spacing speed,
                 edge_protect := EDGE_BUFFER })
    else
      ((Cell.P, g.elev), none, { g with pit_left := g.pit_left - 1 })
  else if 0 < g.cooldown then
    ((Cell.G, g.elev), none,
      { g with cooldown := g.cooldown - 1,
               edge_protect := if 0 < g.edge_protect then g.edge_protect - 1
                               else g.edge_protect })
  else
    if ent.randoms g.ri < STEP_RATE then
      let g2 := step_event ent { g with ri := g.ri + 1 }
      ((Cell.G, g2.elev), none,
        { g2 with cooldown := min_spacing speed, edge_protect := EDGE_BUFFER })
    else if PIT_MIN ≤ pit_cap_of speed ∧ ent.randoms (g.ri + 1) < PIT_RATE then
      ((Cell.P, g.elev), none,
        { g with ri := g.ri + 2, ii := g.ii + 1,
                 pit_left := randint ent g.ii PIT_MIN (pit_cap_of speed) - 1 })
    else if g.edge_protect = 0 ∧ ent.randoms (g.ri + 2) < CONE_RATE then
      ((Cell.C, g.elev), none, { g with ri := g.ri + 3, cooldown := min_spacing speed })
    else if ent.randoms (g.ri + 3) < ENEMY_RATE then
      ((Cell.G, g.elev), some (), { g with ri := g.ri + 4, cooldown := min_spacing speed })
    else
      ((Cell.G, g.elev), none,
        { g with ri := g.ri + 4,
                 edge_protect := if 0 < g.edge_protect then g.edge_protect - 1
                                 else g.edge_protect })

/-- Generator state after `n` calls to `next_cell`, the call with index `k`
being made at speed `speeds k`. -/
def run (ent : Entropy) (g : TrackGen) (speeds : ℕ → ℚ) : ℕ → TrackGen
  | 0 => g
  | n + 1 => (next_cell ent (run ent g speeds n) (speeds n)).2.2

/-- The `(cell, elev)` pair emitted by the call with index `n`. -/
def colAt (ent : Entropy) (g : TrackGen) (speeds : ℕ → ℚ) (n : ℕ) : Cell × ℤ :=
  (next_cell ent (run ent g speeds n) (speeds n)).1

/-- The enemy marker emitted by the call with index `n`. -/
def markerAt (ent : Entropy) (g : TrackGen) (speeds : ℕ → ℚ) (n : ℕ) : Option Unit :=
  (next_cell ent (run ent g speeds n) (speeds n)).2.1

/-- A fresh generator as constructed in `main`: all counters zero and
`warmup_cols = int(SAFE_START_SEC * START_SPEED * FPS) + w`. -/
def freshGen (w : ℕ) (maxe : ℤ) : TrackGen :=
  { warmup_cols := pyint (SAFE_START_SEC * START_SPEED * FPS) + w
    cooldown := 0, pit_left := 0, edge_protect := 0, elev := 0
    max_elev := maxe, ri := 0, ii := 0 }

/-- The call with index `k` produces a hazard column: the emitted cell is a
pit or cone, an enemy marker is emitted, or the elevation changes (a step
event; step columns are emitted as ground and are only observable through
the elevation). -/
def isHazardCol (ent : Entropy) (g : TrackGen) (speeds : ℕ → ℚ) (k : ℕ) : Prop :=
  (colAt ent g speeds k).1 ≠ Cell.G ∨ markerAt ent g speeds k ≠ none ∨
    (run ent g speeds (k + 1)).elev ≠ (run ent g speeds k).elev

/-- The call from state `g` at speed `s` resolves (terminates) a hazard: it
is the last column of an active pit, or a step, cone, or enemy event fires
in the new-hazard roll. These are exactly the branches of `next_cell` that
re-arm the cooldown. -/
def isHazardEnd (ent : Entropy) (g : TrackGen) (s : ℚ) : Prop :=
  g.warmup_cols ≤ 0 ∧
    (g.pit_left = 1 ∨
      (g.pit_left ≤ 0 ∧ g.cooldown ≤ 0 ∧
        (ent.randoms g.ri < STEP_RATE ∨
          (¬ ent.randoms g.ri < STEP_RATE ∧
            ¬ (PIT_MIN ≤ pit_cap_of s ∧ ent.randoms (g.ri + 1) < PIT_RATE) ∧
            ((g.edge_protect = 0 ∧ ent.randoms (g.ri + 2) < CONE_RATE) ∨
              (¬ (g.edge_protect = 0 ∧ ent.randoms (g.ri + 2) < CONE_RATE) ∧
                ent.randoms (g.ri + 3) < ENEMY_RATE))))))

/-- An entropy stream whose draws all miss every hazard rate. -/
def entH : Entropy := ⟨fun _ => 1/2, fun _ => 0⟩

/-- An entropy stream whose draws are all zero (every trial succeeds). -/
def entZ : Entropy := ⟨fun _ => 0, fun _ => 0⟩

/-- An entropy stream missing the step roll but hitting the pit roll. -/
def entLow : Entropy := ⟨fun i => if i = 1 then 1/200 else 1/2, fun _ => 0⟩

/-- A generator state past warm-up with all counters exhausted (roll state). -/
def gRoll : TrackGen :=
  { warmup_cols := 0, cooldown := 0, pit_left := 0, edge_protect := 0
    elev := 0, max_elev := 10, ri := 0, ii := 0 }

/-- A generator state on the last column of an active pit. -/
def gPitEnd : TrackGen :=
  { warmup_cols := 0, cooldown := 0, pit_left := 1, edge_protect := 0
    elev := 0, max_elev := 10, ri := 0, ii := 0 }

/-- A generator state at elevation 0 with `max_elev = 0` (tiny terminal). -/
def gFlat : TrackGen :=
  { warmup_cols := 0, cooldown := 0, pit_left := 0, edge_protect := 0
    elev := 0, max_elev := 0, ri := 0, ii := 0 }

/-- The constant speed sequence at the starting speed. -/
def spd1 : ℕ → ℚ := fun _ => 1

/-- The grounded test of the collision checks:
`abs(player.y - surface_row) < 0.51`. -/
abbrev on_ground_check (y surface_row : ℚ) : Prop := |y - surface_row| < 51/100

/-- The step-wall GameOver condition, with `surface_row = base_row - elev_here`
and `next_surface_row = base_row - elev_next`: grounded, next column strictly
higher, and `player.y > next_surface_row - 0.01`. -/
abbrev step_wall_crash (y : ℚ) (base_row elev_here elev_next : ℤ) : Prop :=
  on_ground_check y ((base_row : ℚ) - (elev_here : ℚ)) ∧ elev_here < elev_next ∧
    ((base_row : ℚ) - (elev_next : ℚ)) - 1/100 < y

/-- The player: fixed column, vertical position (row of the vehicle base),
vertical velocity, grounded flag, and buffered jump request. -/
structure Player where
  x : ℤ
  y : ℚ
  vy : ℚ
  on_ground : Bool
  jump_buffer : Bool
deriving DecidableEq, Repr

/-- `Player.update`: consume a buffered jump if grounded, then, if airborne,
integrate position by velocity and decay velocity by gravity (explicit
Euler), clamping to the surface on landing; while grounded track the
surface row directly. -/
def Player.update (p : Player) (surface_row : ℚ) (dt : ℚ) : Player :=
  let p1 := if p.jump_buffer && p.on_ground then
      { p with vy := JUMP_VEL, on_ground := false, jump_buffer := false }
    else p
  if p1.on_ground = false then
    if surface_row ≤ p1.y - p1.vy * dt then
      { p1 with y := surface_row, vy := 0, on_ground := true }
    else { p1 with y := p1.y - p1.vy * dt, vy := p1.vy - GRAVITY * dt }
  else { p1 with y := surface_row }

/-- `n` frames of `Player.update` against a constant surface row. -/
def Player.updates (surface dt : ℚ) : ℕ → Player → Player
  | 0, p => p
  | n + 1, p => (Player.updates surface dt n p).update surface dt

/-- Vertical drop (in rows, negated height) accumulated after `n` airborne
frames of the jump arc at `dt = 1/30`:
`jdrop n = sum of jvel k / 30 for k < n`. -/
def jdrop (n : ℕ) : ℚ := (311 * (n : ℚ) - 11 * (n : ℚ) ^ 2) / 900

/-- Vertical velocity after `n` airborne frames of the jump arc. -/
def jvel (n : ℕ) : ℚ := 10 - (22/30) * (n : ℚ)

/-- A projectile: position of its 1x1 box. -/
structure Bullet where
  x : ℚ
  y : ℚ
deriving DecidableEq, Repr

/-- An enemy: position of its art bounding box plus shimmy direction. -/
structure Enemy where
  x : ℚ
  y : ℚ
  shim : ℤ
deriving DecidableEq, Repr

/-- `rects_overlap` from the source: strict AABB overlap. -/
abbrev rects_overlap (ax ay aw ah bx b_y bw bh : ℤ) : Prop :=
  ax < bx + bw ∧ bx < ax + aw ∧ ay < b_y + bh ∧ b_y < ay + ah

/-- The bullet-vs-enemy test of the frame loop: both positions rounded,
bullet as a 1x1 box, enemy as its art bounding box. -/
abbrev bulletHitsEnemy (b : Bullet) (e : Enemy) : Prop :=
  rects_overlap (pyround b.x) (pyround b.y) 1 1 (pyround e.x) (pyround e.y)
    ENEMY_WIDTH ENEMY_HEIGHT

/-- The inner bullet loop for one enemy: find the first overlapping bullet;
on a hit, mark it spent by moving it to `w + 999` (in place) and stop. -/
def shootEnemy (wq : ℚ) (e : Enemy) : List Bullet → Option (List Bullet)
  | [] => none
  | b :: rest =>
    if bulletHitsEnemy b e then some ({ b with x := wq + 999 } :: rest)
    else (shootEnemy wq e rest).map (b :: ·)

/-- The bullet-vs-enemy pass of the frame loop: enemies processed in order;
a hit enemy is dropped and scores `ENEMY_SCORE`, a missed enemy is kept;
the (possibly mutated) bullet list is threaded through. -/
def resolveHits (wq : ℚ) : List Enemy → List Bullet → ℤ → List Enemy × List Bullet × ℤ
  | [], bs, s => ([], bs, s)
  | e :: es, bs, s =>
    match shootEnemy wq e bs with
    | some bs2 => resolveHits wq es bs2 (s + ENEMY_SCORE)
    | none =>
      let r := resolveHits wq es bs s
      (e :: r.1, r.2.1, r.2.2)

/-- A concrete enemy for the C8 witness. -/
def e0 : Enemy := ⟨40, 5, 1⟩

/-- A concrete bullet exactly overlapping `e0`. -/
def b0 : Bullet := ⟨40, 5⟩

/-- Truncation toward zero is monotone. -/
lemma pyint_mono {a b : ℚ} (h : a ≤ b) : pyint a ≤ pyint b := by
  unfold pyint
  split_ifs with h1 h2 h2
  · exact Int.floor_le_floor h
  · exact absurd (le_trans h1 h) h2
  · have hc : (⌈a⌉ : ℤ) ≤ 0 := Int.ceil_le.mpr (by exact_mod_cast le_of_not_le h1)
    have hf : (0 : ℤ) ≤ ⌊b⌋ := Int.le_floor.mpr (by exact_mod_cast h2)
    omega
  · exact Int.ceil_le_ceil h

/-- Warm-up branch of `next_cell`. -/
lemma next_cell_warmup (ent : Entropy) (g : TrackGen) (s : ℚ)
    (h : 0 < g.warmup_cols) :
    next_cell ent g s =
      ((Cell.G, g.elev), none, { g with warmup_cols := g.warmup_cols - 1 }) := by
  rw [next_cell, if_pos h]

/-- Cooldown branch of `next_cell`. -/
lemma next_cell_cooldown (ent : Entropy) (g : TrackGen) (s : ℚ)
    (h1 : g.warmup_cols ≤ 0) (h2 : g.pit_left ≤ 0) (h3 : 0 < g.cooldown) :
    next_cell ent g s =
      ((Cell.G, g.elev), none,
        { g with cooldown := g.cooldown - 1,
                 edge_protect := if 0 < g.edge_protect then g.edge_protect - 1
                                 else g.edge_protect }) := by
  rw [next_cell, if_neg (not_lt.mpr h1), if_neg (not_lt.mpr h2), if_pos h3]

/-- `step_event` only touches the elevation and the random counter. -/
lemma step_event_fields (ent : Entropy) (g : TrackGen) :
    (step_event ent g).warmup_cols = g.warmup_cols ∧
    (step_event ent g).cooldown = g.cooldown ∧
    (step_event ent g).pit_left = g.pit_left ∧
    (step_event ent g).edge_protect = g.edge_protect ∧
    (step_event ent g).max_elev = g.max_elev := by
  unfold step_event
  split_ifs <;> simp

/-- Every hazard-resolving call re-arms the cooldown to `min_spacing` at the
speed of that call, and leaves the warm-up and pit counters exhausted. -/
lemma hazardEnd_post (ent : Entropy) (g : TrackGen) (s : ℚ)
    (h : isHazardEnd ent g s) :
    (next_cell ent g s).2.2.cooldown = min_spacing s ∧
    (next_cell ent g s).2.2.warmup_cols ≤ 0 ∧
    (next_cell ent g s).2.2.pit_left ≤ 0 := by
  obtain ⟨hw, hcase⟩ := h
  rcases hcase with hpit | ⟨hp, hc, hroll⟩
  · rw [next_cell, if_neg (not_lt.mpr hw), if_pos (by omega : (0:ℤ) < g.pit_left),
      if_pos (by omega : g.pit_left - 1 = 0)]
    simpa using And.intro hw (by omega)
  · rcases hroll with hstep | ⟨hnstep, hnpit, hrest⟩
    · rw [next_cell, if_neg (not_lt.mpr hw), if_neg (not_lt.mpr hp),
        if_neg (not_lt.mpr hc), if_pos hstep]
      have hf := step_event_fields ent { g with ri := g.ri + 1 }
      simp only at hf
      simp [hf.1, hf.2.2.1, hw, hp]
    · rcases hrest with hcone | ⟨hncone, henemy⟩
      · rw [next_cell, if_neg (not_lt.mpr hw), if_neg (not_lt.mpr hp),
          if_neg (not_lt.mpr hc), if_neg hnstep, if_neg hnpit, if_pos hcone]
        simpa using And.intro hw hp
      · rw [next_cell, if_neg (not_lt.mpr hw), if_neg (not_lt.mpr hp),
          if_neg (not_lt.mpr hc), if_neg hnstep, if_neg hnpit, if_neg hncone,
          if_pos henemy]
        simpa using And.intro hw hp

/-- While the cooldown runs (with warm-up and pit counters exhausted) the
generator keeps its warm-up, pit, and elevation fields and counts the
cooldown down one per column. -/
lemma run_cooldown_fields (ent : Entropy) (speeds : ℕ → ℚ) (g : TrackGen)
    (h1 : g.warmup_cols ≤ 0) (h2 : g.pit_left ≤ 0) :
    ∀ k : ℕ, (k : ℤ) ≤ g.cooldown →
      (run ent g speeds k).warmup_cols = g.warmup_cols ∧
      (run ent g speeds k).pit_left = g.pit_left ∧
      (run ent g speeds k).cooldown = g.cooldown - k ∧
      (run ent g speeds k).elev = g.elev := by
  intro k
  induction k with
  | zero => intro _; simp [run]
  | succ n ih =>
    intro hle
    have hn : (n : ℤ) ≤ g.cooldown := by push_cast at hle ⊢; omega
    obtain ⟨w1, p1, c1, e1⟩ := ih hn
    have hpos : 0 < (run ent g speeds n).cooldown := by
      rw [c1]; push_cast at hle; omega
    have hstep := next_cell_cooldown ent (run ent g speeds n) (speeds n)
      (by rw [w1]; exact h1) (by rw [p1]; exact h2) hpos
    simp only [run, hstep]
    refine ⟨w1, p1, ?_, e1⟩
    rw [c1]; push_cast; ring

/-- Claim C2. After any hazard-resolving call (last pit column, step, cone, or
enemy column) made at speed `s`, the cooldown is re-armed to `min_spacing s`
and, for every interleaving of speeds, each of the next `min_spacing s`
columns is plain ground at unchanged elevation, carries no enemy marker, and
is not a hazard column; hence at least `min_spacing s - 1` (indeed
`min_spacing s`) plain-ground columns separate the resolved hazard from the
start of the next one. -/
theorem C2_hazard_spacing (ent : Entropy) (speeds : ℕ → ℚ) (g : TrackGen)
    (s : ℚ) (h : isHazardEnd ent g s) :
    (next_cell ent g s).2.2.cooldown = min_spacing s ∧
    ∀ k : ℕ, (k : ℤ) < min_spacing s →
      colAt ent (next_cell ent g s).2.2 speeds k =
        (Cell.G, (next_cell ent g s).2.2.elev) ∧
      markerAt ent (next_cell ent g s).2.2 speeds k = none ∧
      ¬ isHazardCol ent (next_cell ent g s).2.2 speeds k := by
  obtain ⟨hcool, hwarm, hpit⟩ := hazardEnd_post ent g s h
  set g2 := (next_cell ent g s).2.2 with hg2
  refine ⟨hcool, fun k hk => ?_⟩
  have hkle : (k : ℤ) ≤ g2.cooldown := by omega
  obtain ⟨w1, p1, c1, e1⟩ := run_cooldown_fields ent speeds g2 hwarm hpit k hkle
  have hpos : 0 < (run ent g2 speeds k).cooldown := by rw [c1]; omega
  have hbr := next_cell_cooldown ent (run ent g2 speeds k) (speeds k)
    (by rw [w1]; exact hwarm) (by rw [p1]; exact hpit) hpos
  have hcol : colAt ent g2 speeds k = (Cell.G, g2.elev) := by
    rw [colAt, hbr, e1]
  have hmk : markerAt ent g2 speeds k = none := by
    rw [markerAt, hbr]
  refine ⟨hcol, hmk, ?_⟩
  have hk1 : ((k + 1 : ℕ) : ℤ) ≤ g2.cooldown := by push_cast; omega
  obtain ⟨_, _, _, e2⟩ := run_cooldown_fields ent speeds g2 hwarm hpit (k + 1) hk1
  intro hh
  rcases hh with hc | hm | he
  · rw [hcol] at hc; exact hc rfl
  · exact hm hmk
  · rw [e1, e2] at he; exact he rfl

/-- The jump envelope at the starting speed covers 24 columns. -/
lemma mjc_one : max_jump_columns 1 = 24 := by
  rw [max_jump_columns, FPS, JUMP_VEL, GRAVITY, pyint, if_pos (by norm_num)]
  norm_num

/-- The minimum spacing at the starting speed is 28 columns. -/
lemma ms_one : min_spacing 1 = 28 := by
  rw [min_spacing, mjc_one, SPACING_FACTOR, pyint, if_pos (by norm_num)]
  norm_num

/-- At speed 1/10 the jump envelope is clamped to its hard minimum of 3. -/
lemma mjc_tenth : max_jump_columns (1/10) = 3 := by
  rw [max_jump_columns, FPS, JUMP_VEL, GRAVITY, pyint, if_pos (by norm_num)]
  norm_num

/-- At speed 1/10 the minimum spacing equals the jump envelope. -/
lemma ms_tenth : min_spacing (1/10) = 3 := by
  rw [min_spacing, mjc_tenth, SPACING_FACTOR, pyint, if_pos (by norm_num)]
  norm_num

/-- At speed 1/10 the pit cap is pulled back up to `PIT_MIN` by the `max`. -/
lemma pit_cap_tenth : pit_cap_of (1/10) = 3 := by
  rw [pit_cap_of, mjc_tenth, PIT_MIN, PIT_MAX]
  norm_num

/-- Claim C1. Failing evaluation: at speed 1/10 the upper bound
`min(PIT_MAX, maxJumpColumns - 2) = 1` lies below `PIT_MIN = 3`, so the spec
says pits are suppressed; yet from a roll state whose step trial misses and
whose pit trial hits, `next_cell` emits a pit column (of total width 3,
`pit_left = 2` more columns), because the source computes
`pit_cap = max(PIT_MIN, min(PIT_MAX, J - 2))`, making its own `can_pit`
guard vacuously true. -/
theorem C1_pit_emitted_despite_bound :
    min PIT_MAX (max_jump_columns (1/10) - 2) < PIT_MIN ∧
    (next_cell entLow gRoll (1/10)).1.1 = Cell.P ∧
    (next_cell entLow gRoll (1/10)).2.2.pit_left = 2 := by
  refine ⟨by rw [mjc_tenth, PIT_MAX, PIT_MIN]; norm_num, ?_⟩
  have h1 : ¬ (0 : ℤ) < gRoll.warmup_cols := by decide
  have h2 : ¬ (0 : ℤ) < gRoll.pit_left := by decide
  have h3 : ¬ (0 : ℤ) < gRoll.cooldown := by decide
  have h4 : ¬ entLow.randoms gRoll.ri < STEP_RATE := by
    norm_num [entLow, gRoll, STEP_RATE]
  have h5 : PIT_MIN ≤ pit_cap_of (1/10) ∧ entLow.randoms (gRoll.ri + 1) < PIT_RATE := by
    refine ⟨by rw [pit_cap_tenth]; decide, ?_⟩
    norm_num [entLow, gRoll, PIT_RATE]
  rw [next_cell, if_neg h1, if_neg h2, if_neg h3, if_neg h4, if_pos h5]
  refine ⟨rfl, ?_⟩
  show randint entLow gRoll.ii PIT_MIN (pit_cap_of (1/10)) - 1 = 2
  rw [pit_cap_tenth, randint]
  norm_num [entLow, PIT_MIN]

/-- Claim C4, counterexample: at the positive speed 1/10 the minimum spacing is
not strictly greater than the jump envelope; both equal 3. -/
theorem C4_counterexample :
    (0 : ℚ) < 1/10 ∧ ¬ max_jump_columns (1/10) < min_spacing (1/10) := by
  rw [mjc_tenth, ms_tenth]
  norm_num

/-- Claim C4, amended: for every speed, `min_spacing` is at least (but not always
strictly greater than) `max_jump_columns`, and `max_jump_columns` is at
least 3. -/
theorem C4_spacing_ge (s : ℚ) :
    3 ≤ max_jump_columns s ∧ max_jump_columns s ≤ min_spacing s := by
  have hJ : (3 : ℤ) ≤ max_jump_columns s := le_max_left 3 _
  refine ⟨hJ, ?_⟩
  have hJ0 : (0 : ℚ) ≤ (max_jump_columns s : ℚ) := by exact_mod_cast le_trans (by norm_num) hJ
  rw [min_spacing, SPACING_FACTOR, pyint,
    if_pos (by positivity : (0:ℚ) ≤ (max_jump_columns s : ℚ) * (12/10))]
  rw [Int.le_floor]
  nlinarith [hJ0]

/-- Claim C10. Both jump-envelope functions are monotone non-decreasing in speed:
a larger speed never shrinks the jump allowance or the required spacing. -/
theorem C10_monotone (s1 s2 : ℚ) (h : s1 ≤ s2) :
    max_jump_columns s1 ≤ max_jump_columns s2 ∧
    min_spacing s1 ≤ min_spacing s2 := by
  have hJ : max_jump_columns s1 ≤ max_jump_columns s2 := by
    rw [max_jump_columns, max_jump_columns]
    refine max_le_max le_rfl (pyint_mono ?_)
    have hc : (0 : ℚ) ≤ FPS * (2 * (JUMP_VEL / GRAVITY)) * (9/10) := by
      rw [FPS, JUMP_VEL, GRAVITY]; norm_num
    calc s1 * FPS * (2 * (JUMP_VEL / GRAVITY)) * (9/10)
        = s1 * (FPS * (2 * (JUMP_VEL / GRAVITY)) * (9/10)) := by ring
      _ ≤ s2 * (FPS * (2 * (JUMP_VEL / GRAVITY)) * (9/10)) :=
          mul_le_mul_of_nonneg_right h hc
      _ = s2 * FPS * (2 * (JUMP_VEL / GRAVITY)) * (9/10) := by ring
  refine ⟨hJ, ?_⟩
  rw [min_spacing, min_spacing]
  refine pyint_mono ?_
  rw [SPACING_FACTOR]
  have : (max_jump_columns s1 : ℚ) ≤ (max_jump_columns s2 : ℚ) := by exact_mod_cast hJ
  nlinarith [this]

/-- Claim C10, witness at speeds 1 and 2. -/
theorem C10_witness :
    (1 : ℚ) ≤ 2 ∧ max_jump_columns 1 ≤ max_jump_columns 2 ∧
      min_spacing 1 ≤ min_spacing 2 := by
  have h := C10_monotone 1 2 (by norm_num)
  exact ⟨by norm_num, h.1, h.2⟩

/-- A step event moves the elevation by exactly one, up or down. -/
lemma step_event_elev (ent : Entropy) (g : TrackGen) :
    (step_event ent g).elev = g.elev + 1 ∨ (step_event ent g).elev = g.elev - 1 := by
  unfold step_event
  split_ifs <;> simp

/-- A step event keeps the elevation within `[0, max_elev]` whenever
`1 ≤ max_elev` and the elevation starts inside the band. -/
lemma step_event_bounds (ent : Entropy) (g : TrackGen) (hm : 1 ≤ g.max_elev)
    (h0 : 0 ≤ g.elev) (h1 : g.elev ≤ g.max_elev) :
    0 ≤ (step_event ent g).elev ∧ (step_event ent g).elev ≤ g.max_elev := by
  unfold step_event
  split_ifs with a b c <;> simp <;> omega

/-- `next_cell` either keeps the elevation or delegates it to `step_event`
(the step branch, taken only from a roll state whose step trial fires). -/
lemma next_cell_elev_cases (ent : Entropy) (g : TrackGen) (s : ℚ) :
    (next_cell ent g s).2.2.elev = g.elev ∨
      ((g.warmup_cols ≤ 0 ∧ g.pit_left ≤ 0 ∧ g.cooldown ≤ 0 ∧
          ent.randoms g.ri < STEP_RATE) ∧
        (next_cell ent g s).2.2.elev = (step_event ent { g with ri := g.ri + 1 }).elev) := by
  unfold next_cell
  split_ifs
  all_goals
    first
      | (right; exact ⟨⟨by omega, by omega, by omega, by assumption⟩, by simp⟩)
      | (left; simp)

/-- Claim C5, counterexample: with `max_elev = 0` (a legal state: `eff_max_elev`
can be 0 on a small terminal) and elevation 0 inside `[0, max_elev]`, a
firing step trial forces the direction up and pushes the elevation to 1,
leaving the band. -/
theorem C5_counterexample :
    (0 ≤ gFlat.elev ∧ gFlat.elev ≤ gFlat.max_elev) ∧
    ¬ (next_cell entZ gFlat 1).2.2.elev ≤ gFlat.max_elev := by
  refine ⟨by decide, ?_⟩
  have h1 : ¬ (0 : ℤ) < gFlat.warmup_cols := by decide
  have h2 : ¬ (0 : ℤ) < gFlat.pit_left := by decide
  have h3 : ¬ (0 : ℤ) < gFlat.cooldown := by decide
  have h4 : entZ.randoms gFlat.ri < STEP_RATE := by
    norm_num [entZ, gFlat, STEP_RATE]
  rw [next_cell, if_neg h1, if_neg h2, if_neg h3, if_pos h4]
  decide

/-- Claim C5, amended: provided `1 ≤ max_elev`, any generated column keeps the
elevation within `[0, max_elev]`; any column changes it by at most one; every
step event, anywhere in the band, changes it by exactly plus one or minus
one; the direction is forced up at elevation 0 and forced down at
`max_elev`. -/
theorem C5_elev_bounds (ent : Entropy) (g : TrackGen) (s : ℚ)
    (hm : 1 ≤ g.max_elev) (h0 : 0 ≤ g.elev) (h1 : g.elev ≤ g.max_elev) :
    (0 ≤ (next_cell ent g s).2.2.elev ∧ (next_cell ent g s).2.2.elev ≤ g.max_elev) ∧
    ((next_cell ent g s).2.2.elev = g.elev ∨
      (next_cell ent g s).2.2.elev = g.elev + 1 ∨
      (next_cell ent g s).2.2.elev = g.elev - 1) ∧
    ((step_event ent g).elev = g.elev + 1 ∨ (step_event ent g).elev = g.elev - 1) ∧
    (g.elev = 0 → (step_event ent g).elev = g.elev + 1) ∧
    (g.elev = g.max_elev → (step_event ent g).elev = g.elev - 1) := by
  have hb := step_event_bounds ent { g with ri := g.ri + 1 } hm h0 h1
  have he := step_event_elev ent { g with ri := g.ri + 1 }
  have hcases := next_cell_elev_cases ent g s
  refine ⟨?_, ?_, step_event_elev ent g, ?_, ?_⟩
  · rcases hcases with h | ⟨_, h⟩
    · rw [h]; exact ⟨h0, h1⟩
    · rw [h]; exact hb
  · rcases hcases with h | ⟨_, h⟩
    · exact Or.inl h
    · rcases he with h2 | h2
      · exact Or.inr (Or.inl (by rw [h, h2]))
      · exact Or.inr (Or.inr (by rw [h, h2]))
  · intro hz
    rw [step_event, if_pos hz]
  · intro hx
    rw [step_event, if_neg (by omega), if_pos (by omega)]

/-- Claim C5, witness: a concrete in-band state with `max_elev = 10` at elevation
0 stays in band after one generated column. -/
theorem C5_witness :
    ((1 : ℤ) ≤ gRoll.max_elev ∧ 0 ≤ gRoll.elev ∧ gRoll.elev ≤ gRoll.max_elev) ∧
    (0 ≤ (next_cell entZ gRoll 1).2.2.elev ∧
      (next_cell entZ gRoll 1).2.2.elev ≤ gRoll.max_elev) :=
  ⟨by decide, (C5_elev_bounds entZ gRoll 1 (by decide) (by decide) (by decide)).1⟩

/-- Claim C3, counterexample: from the same roll state, a column whose step trial
fires consumes a single `rng.random()` draw, while a column with no
successful trial consumes four; the per-column consumption sequence is not
one draw per category regardless of firing. -/
theorem C3_counterexample :
    (next_cell entZ gRoll 1).2.2.ri = gRoll.ri + 1 ∧
    (next_cell entH gRoll 1).2.2.ri = gRoll.ri + 4 ∧
    gRoll.ri + 1 ≠ gRoll.ri + 4 := by
  refine ⟨?_, ?_, by decide⟩
  · have h1 : ¬ (0 : ℤ) < gRoll.warmup_cols := by decide
    have h2 : ¬ (0 : ℤ) < gRoll.pit_left := by decide
    have h3 : ¬ (0 : ℤ) < gRoll.cooldown := by decide
    have h4 : entZ.randoms gRoll.ri < STEP_RATE := by
      norm_num [entZ, gRoll, STEP_RATE]
    rw [next_cell, if_neg h1, if_neg h2, if_neg h3, if_pos h4]
    decide
  · have h1 : ¬ (0 : ℤ) < gRoll.warmup_cols := by decide
    have h2 : ¬ (0 : ℤ) < gRoll.pit_left := by decide
    have h3 : ¬ (0 : ℤ) < gRoll.cooldown := by decide
    have h4 : ¬ entH.randoms gRoll.ri < STEP_RATE := by
      norm_num [entH, gRoll, STEP_RATE]
    have h5 : ¬ (PIT_MIN ≤ pit_cap_of 1 ∧ entH.randoms (gRoll.ri + 1) < PIT_RATE) := by
      rintro ⟨-, hr⟩
      norm_num [entH, gRoll, PIT_RATE] at hr
    have h6 : ¬ (gRoll.edge_protect = 0 ∧ entH.randoms (gRoll.ri + 2) < CONE_RATE) := by
      rintro ⟨-, hr⟩
      norm_num [entH, gRoll, CONE_RATE] at hr
    have h7 : ¬ entH.randoms (gRoll.ri + 3) < ENEMY_RATE := by
      norm_num [entH, gRoll, ENEMY_RATE]
    rw [next_cell, if_neg h1, if_neg h2, if_neg h3, if_neg h4, if_neg h5, if_neg h6,
      if_neg h7]

/-- Claim C3, amended: draws are made lazily in the fixed priority order step,
pit, cone, enemy; the first success returns immediately, suppressing both
the draws and the effects of the later categories. Per roll column the
number of consumed `rng.random()` draws is 1 for a firing step at an
elevation bound (2 with the direction draw strictly inside the band), 2 for
a pit start, 3 for a cone, and 4 for an enemy or hazard-free column. -/
theorem C3_draw_counts (ent : Entropy) (g : TrackGen) (s : ℚ)
    (h1 : g.warmup_cols ≤ 0) (h2 : g.pit_left ≤ 0) (h3 : g.cooldown ≤ 0) :
    (next_cell ent g s).2.2.ri =
      if ent.randoms g.ri < STEP_RATE then
        (if g.elev = 0 ∨ g.max_elev ≤ g.elev then g.ri + 1 else g.ri + 2)
      else if PIT_MIN ≤ pit_cap_of s ∧ ent.randoms (g.ri + 1) < PIT_RATE then g.ri + 2
      else if g.edge_protect = 0 ∧ ent.randoms (g.ri + 2) < CONE_RATE then g.ri + 3
      else g.ri + 4 := by
  rw [next_cell, if_neg (not_lt.mpr h1), if_neg (not_lt.mpr h2), if_neg (not_lt.mpr h3)]
  by_cases h4 : ent.randoms g.ri < STEP_RATE
  · rw [if_pos h4, if_pos h4]
    show (step_event ent { g with ri := g.ri + 1 }).ri = _
    rw [step_event]
    by_cases hz : g.elev = 0
    · rw [if_pos (show ({ g with ri := g.ri + 1 } : TrackGen).elev = 0 from hz),
        if_pos (Or.inl hz)]
    · rw [if_neg (show ¬ ({ g with ri := g.ri + 1 } : TrackGen).elev = 0 from hz)]
      by_cases hx : g.max_elev ≤ g.elev
      · rw [if_pos (show ({ g with ri := g.ri + 1 } : TrackGen).max_elev ≤
            ({ g with ri := g.ri + 1 } : TrackGen).elev from hx), if_pos (Or.inr hx)]
      · rw [if_neg (show ¬ ({ g with ri := g.ri + 1 } : TrackGen).max_elev ≤
            ({ g with ri := g.ri + 1 } : TrackGen).elev from hx),
          if_neg (show ¬ (g.elev = 0 ∨ g.max_elev ≤ g.elev) by tauto)]
        split_ifs <;> simp
  · rw [if_neg h4, if_neg h4]
    split_ifs <;> simp

/-- Claim C2, witness: the last column of a pit re-arms the cooldown to
`min_spacing 1 = 28`, and column 3 afterwards is not a hazard column. -/
theorem C2_witness :
    isHazardEnd entH gPitEnd 1 ∧
    (next_cell entH gPitEnd 1).2.2.cooldown = min_spacing 1 ∧
    ¬ isHazardCol entH (next_cell entH gPitEnd 1).2.2 spd1 3 := by
  have hend : isHazardEnd entH gPitEnd 1 := ⟨by decide, Or.inl (by decide)⟩
  have h := C2_hazard_spacing entH spd1 gPitEnd 1 hend
  have hk : ((3 : ℕ) : ℤ) < min_spacing 1 := by rw [ms_one]; decide
  exact ⟨hend, h.1, (h.2 3 hk).2.2⟩

/-- While the warm-up counter is positive, each column only decrements it. -/
lemma warmup_run (ent : Entropy) (speeds : ℕ → ℚ) (g : TrackGen) :
    ∀ k : ℕ, (k : ℤ) ≤ g.warmup_cols →
      run ent g speeds k = { g with warmup_cols := g.warmup_cols - k } := by
  intro k
  induction k with
  | zero => intro _; simp [run]
  | succ n ih =>
    intro hle
    have hn : (n : ℤ) ≤ g.warmup_cols := by push_cast at hle ⊢; omega
    have hrn := ih hn
    have hpos : 0 < (run ent g speeds n).warmup_cols := by
      rw [hrn]
      show 0 < g.warmup_cols - (n : ℤ)
      push_cast at hle; omega
    simp only [run, next_cell_warmup ent _ (speeds n) hpos]
    rw [hrn]
    congr 1
    push_cast
    ring

/-- Claim C9. From a fresh generator, the warm-up counter equals
`ceil(SAFE_START_SEC * START_SPEED * FPS) + w` (the `int` truncation in the
source coincides with the ceiling because the product is the integer 60),
and every column generated before it runs out is plain ground at elevation
0 with no enemy marker, regardless of the speeds passed. -/
theorem C9_warmup (ent : Entropy) (speeds : ℕ → ℚ) (w : ℕ) (maxe : ℤ) :
    (freshGen w maxe).warmup_cols = ⌈SAFE_START_SEC * START_SPEED * FPS⌉ + w ∧
    ∀ k : ℕ, (k : ℤ) < ⌈SAFE_START_SEC * START_SPEED * FPS⌉ + w →
      colAt ent (freshGen w maxe) speeds k = (Cell.G, 0) ∧
      markerAt ent (freshGen w maxe) speeds k = none ∧
      (run ent (freshGen w maxe) speeds k).elev = 0 := by
  have hwc : (freshGen w maxe).warmup_cols = ⌈SAFE_START_SEC * START_SPEED * FPS⌉ + w := by
    show pyint (SAFE_START_SEC * START_SPEED * FPS) + w = _
    rw [SAFE_START_SEC, START_SPEED, FPS, pyint, if_pos (by norm_num)]
    norm_num
  refine ⟨hwc, fun k hk => ?_⟩
  have hk2 : (k : ℤ) < (freshGen w maxe).warmup_cols := by rw [hwc]; exact hk
  have hrun := warmup_run ent speeds (freshGen w maxe) k (le_of_lt hk2)
  have hpos : 0 < (run ent (freshGen w maxe) speeds k).warmup_cols := by
    rw [hrun]
    show 0 < (freshGen w maxe).warmup_cols - (k : ℤ)
    omega
  have hbr := next_cell_warmup ent (run ent (freshGen w maxe) speeds k) (speeds k) hpos
  have helev : (run ent (freshGen w maxe) speeds k).elev = 0 := by
    rw [hrun]; rfl
  refine ⟨?_, ?_, helev⟩
  · rw [colAt, hbr, helev]
  · rw [markerAt, hbr]

/-- Claim C9, witness: with screen width 80, column index 61 (inside the warm-up
stretch of 140 columns) is plain ground with no marker. -/
theorem C9_witness :
    (((61 : ℕ) : ℤ) < ⌈SAFE_START_SEC * START_SPEED * FPS⌉ + (80 : ℕ)) ∧
    colAt entH (freshGen 80 10) spd1 61 = (Cell.G, 0) ∧
    markerAt entH (freshGen 80 10) spd1 61 = none := by
  have hk : (((61 : ℕ)) : ℤ) < ⌈SAFE_START_SEC * START_SPEED * FPS⌉ + ((80 : ℕ) : ℤ) := by
    rw [SAFE_START_SEC, START_SPEED, FPS]
    norm_num
  have h := (C9_warmup entH spd1 80 10).2 61 hk
  exact ⟨hk, h.1, h.2.1⟩

/-- Claim C6. The step-wall check triggers GameOver exactly when the player is
grounded (by the 0.51 tolerance), the next column is strictly higher, and
the player row has not yet risen to or above the next surface row
(rows decrease upward, so risen-to-or-above means `y ≤ next_surface_row`);
in particular a grounded player exactly at or above the next surface row
never triggers it, the 0.01 epsilon notwithstanding, because integral
elevations differ by at least a full row while the grounded tolerance is
only 0.51. -/
theorem C6_step_wall_iff (y : ℚ) (base_row elev_here elev_next : ℤ) :
    step_wall_crash y base_row elev_here elev_next ↔
      (on_ground_check y ((base_row : ℚ) - (elev_here : ℚ)) ∧ elev_here < elev_next ∧
        ¬ y ≤ (base_row : ℚ) - (elev_next : ℚ)) := by
  constructor
  · rintro ⟨hg, hlt, hy⟩
    refine ⟨hg, hlt, fun hle => ?_⟩
    have hc : (elev_here : ℚ) + 1 ≤ (elev_next : ℚ) := by exact_mod_cast hlt
    have habs := abs_lt.mp hg
    linarith [habs.1, habs.2]
  · rintro ⟨hg, hlt, hy⟩
    push_neg at hy
    exact ⟨hg, hlt, by linarith⟩

lemma jdrop_succ (n : ℕ) : jdrop (n + 1) = jdrop n + jvel n * (1/30) := by
  unfold jdrop jvel
  push_cast
  ring

lemma jdrop_pos (m : ℕ) (h1 : 1 ≤ m) (h2 : m ≤ 28) : 0 < jdrop m := by
  unfold jdrop
  have c1 : (1 : ℚ) ≤ (m : ℚ) := by exact_mod_cast h1
  have c2 : (m : ℚ) ≤ 28 := by exact_mod_cast h2
  nlinarith [mul_pos (show (0:ℚ) < (m:ℚ) by linarith)
    (show (0:ℚ) < 311 - 11 * (m:ℚ) by linarith)]

/-- One frame of an airborne, jump-consumed player. -/
lemma update_airborne (p : Player) (surface dt : ℚ) (hg : p.on_ground = false)
    (hb : p.jump_buffer = false) :
    p.update surface dt =
      if surface ≤ p.y - p.vy * dt then
        { p with y := surface, vy := 0, on_ground := true }
      else { p with y := p.y - p.vy * dt, vy := p.vy - GRAVITY * dt } := by
  rw [Player.update]
  simp [hb, hg]

/-- One frame of a grounded player with a buffered jump. -/
lemma update_jump (p : Player) (surface dt : ℚ) (hg : p.on_ground = true)
    (hb : p.jump_buffer = true) :
    p.update surface dt =
      if surface ≤ p.y - JUMP_VEL * dt then
        { p with y := surface, vy := 0, on_ground := true, jump_buffer := false }
      else { p with y := p.y - JUMP_VEL * dt, vy := JUMP_VEL - GRAVITY * dt,
                    on_ground := false, jump_buffer := false } := by
  rw [Player.update]
  simp [hb, hg]

/-- The airborne phase of the jump arc: for `1 ≤ k ≤ 28` frames the player
is in free flight with the closed-form position and velocity. -/
lemma jump_phase (S : ℚ) : ∀ k : ℕ, 1 ≤ k → k ≤ 28 →
    Player.updates S (1/30) k ⟨0, S, 0, true, true⟩ =
      ⟨0, S - jdrop k, jvel k, false, false⟩ := by
  intro k
  induction k with
  | zero => intro h _; omega
  | succ n ih =>
    intro _ hle
    by_cases hn : n = 0
    · subst hn
      show Player.update (Player.updates S (1/30) 0 ⟨0, S, 0, true, true⟩) S (1/30) = _
      rw [show Player.updates S (1/30) 0 ⟨0, S, 0, true, true⟩ = ⟨0, S, 0, true, true⟩
          from rfl]
      rw [update_jump _ _ _ rfl rfl, JUMP_VEL, GRAVITY,
        if_neg (by norm_num : ¬ S ≤ S - 10 * (1/30))]
      simp only [Player.mk.injEq]
      norm_num [jdrop, jvel]
    · have h1n : 1 ≤ n := Nat.one_le_iff_ne_zero.mpr hn
      have hn28 : n ≤ 28 := by omega
      show Player.update (Player.updates S (1/30) n ⟨0, S, 0, true, true⟩) S (1/30) = _
      rw [ih h1n hn28, update_airborne _ _ _ rfl rfl]
      have hid := jdrop_succ n
      have hpos := jdrop_pos (n + 1) (by omega) hle
      rw [if_neg (by simp only []; linarith)]
      congr 1
      · linarith
      · rw [GRAVITY, jvel, jvel]
        push_cast
        ring

/-- Claim C7. A grounded player with a buffered jump over a constant surface row
`S` leaves the ground, stays airborne for frames 1 through 28, and on frame
29 lands exactly back on the pre-jump surface row with zero velocity via
the landing clamp; the resulting airtime `29/30 s` is within two frames of
the ballistic airtime `2 * JUMP_VEL / GRAVITY`. -/
theorem C7_jump_roundtrip (S : ℚ) :
    Player.updates S (1/30) 29 ⟨0, S, 0, true, true⟩ = ⟨0, S, 0, true, false⟩ ∧
    (∀ k : ℕ, 1 ≤ k → k ≤ 28 →
      (Player.updates S (1/30) k ⟨0, S, 0, true, true⟩).on_ground = false) ∧
    |29 * ((1:ℚ)/30) - 2 * (JUMP_VEL / GRAVITY)| < 2 * (1/30) := by
  refine ⟨?_, ?_, ?_⟩
  · show Player.update (Player.updates S (1/30) 28 ⟨0, S, 0, true, true⟩) S (1/30) = _
    rw [jump_phase S 28 (by omega) (by omega), update_airborne _ _ _ rfl rfl]
    rw [if_pos (show S ≤ S - jdrop 28 - jvel 28 * (1/30) by
      have h : - jdrop 28 - jvel 28 * (1/30) = 58/225 := by norm_num [jdrop, jvel]
      linarith)]
  · intro k h1 h2
    rw [jump_phase S k h1 h2]
  · rw [JUMP_VEL, GRAVITY, abs_of_nonneg (by norm_num)]
    norm_num

/-- Claim C7, witness: at surface row 7, frame 14 is airborne and frame 29 lands
back exactly at row 7. -/
theorem C7_witness :
    Player.updates 7 (1/30) 29 ⟨0, 7, 0, true, true⟩ = ⟨0, 7, 0, true, false⟩ ∧
    (Player.updates 7 (1/30) 14 ⟨0, 7, 0, true, true⟩).on_ground = false :=
  ⟨(C7_jump_roundtrip 7).1, (C7_jump_roundtrip 7).2.1 14 (by omega) (by omega)⟩

/-- If some bullet in the list overlaps the enemy, the scan registers a hit. -/
lemma shootEnemy_isSome (wq : ℚ) (e : Enemy) :
    ∀ bs : List Bullet, (∃ b ∈ bs, bulletHitsEnemy b e) →
      (shootEnemy wq e bs).isSome = true := by
  intro bs
  induction bs with
  | nil => rintro ⟨b, hb, -⟩; cases hb
  | cons b rest ih =>
    rintro ⟨b1, hb1, hhit⟩
    rw [shootEnemy]
    by_cases h : bulletHitsEnemy b e
    · rw [if_pos h]; rfl
    · rw [if_neg h]
      rcases List.mem_cons.mp hb1 with rfl | hmem
      · exact absurd hhit h
      · have hs := ih ⟨b1, hmem, hhit⟩
        cases hrec : shootEnemy wq e rest with
        | none => rw [hrec] at hs; simp at hs
        | some bs2 => simp [hrec]

/-- The kept-enemy list never outgrows the input list. -/
lemma resolveHits_kept_le (wq : ℚ) :
    ∀ (es : List Enemy) (bs : List Bullet) (s : ℤ),
      (resolveHits wq es bs s).1.length ≤ es.length := by
  intro es
  induction es with
  | nil => intro bs s; simp [resolveHits]
  | cons e es ih =>
    intro bs s
    cases hs : shootEnemy wq e bs with
    | some bs2 =>
      simp only [resolveHits, hs]
      exact le_trans (ih bs2 _) (Nat.le_succ _)
    | none =>
      simp only [resolveHits, hs, List.length_cons]
      exact Nat.succ_le_succ (ih bs s)

/-- The score rises by exactly `ENEMY_SCORE` per removed enemy. -/
lemma resolveHits_score (wq : ℚ) :
    ∀ (es : List Enemy) (bs : List Bullet) (s : ℤ),
      (resolveHits wq es bs s).2.2 =
        s + ENEMY_SCORE * ((es.length : ℤ) - ((resolveHits wq es bs s).1.length : ℤ)) := by
  intro es
  induction es with
  | nil => intro bs s; simp [resolveHits]
  | cons e es ih =>
    intro bs s
    cases hs : shootEnemy wq e bs with
    | some bs2 =>
      simp only [resolveHits, hs, List.length_cons]
      rw [ih bs2 (s + ENEMY_SCORE)]
      push_cast
      ring
    | none =>
      simp only [resolveHits, hs, List.length_cons]
      rw [ih bs s]
      push_cast
      ring

/-- Processing an enemy hit by some bullet removes it and scores once. -/
lemma resolveHits_hit_head (wq : ℚ) (e : Enemy) (es : List Enemy)
    (bs bs2 : List Bullet) (s : ℤ) (h : shootEnemy wq e bs = some bs2) :
    resolveHits wq (e :: es) bs s = resolveHits wq es bs2 (s + ENEMY_SCORE) := by
  simp only [resolveHits, h]

lemma pyround_lb (q : ℚ) : ⌊q⌋ ≤ pyround q := by
  unfold pyround
  split_ifs <;> omega

lemma pyround_ub (q : ℚ) : pyround q ≤ ⌊q⌋ + 1 := by
  unfold pyround
  split_ifs <;> omega

/-- A spent bullet (at `w + 999`) overlaps no enemy that is anywhere near
the screen (`x < w + 989`). -/
lemma spent_bullet_no_hit (wq yb : ℚ) (e2 : Enemy) (h : e2.x < wq + 989) :
    ¬ bulletHitsEnemy ⟨wq + 999, yb⟩ e2 := by
  rintro ⟨h1, -, -, -⟩
  simp only [ENEMY_WIDTH] at h1
  have hb1 : ⌊wq⌋ + 999 ≤ pyround (wq + 999) := by
    have hf : ⌊wq⌋ + 999 ≤ ⌊wq + 999⌋ := by
      rw [show wq + 999 = wq + ((999 : ℤ) : ℚ) by norm_num, Int.floor_add_int]
    exact le_trans hf (pyround_lb _)
  have he1 : pyround e2.x ≤ ⌊wq⌋ + 990 := by
    have hf : ⌊e2.x⌋ ≤ ⌊wq⌋ + 989 := by
      have hm : ⌊e2.x⌋ ≤ ⌊wq + 989⌋ := Int.floor_le_floor (le_of_lt h)
      rw [show wq + 989 = wq + ((989 : ℤ) : ℚ) by norm_num, Int.floor_add_int] at hm
      exact hm
    have hu := pyround_ub e2.x
    omega
  omega

/-- Claim C8. The bullet-vs-enemy pass: an enemy overlapped by some live bullet
registers a hit; processing a hit enemy removes it from the kept list and
adds `ENEMY_SCORE` exactly once for it (even if several bullets overlap it,
only the first is consumed); the total score rises by exactly `ENEMY_SCORE`
per removed enemy; and a consumed bullet, moved to `w + 999`, cannot
overlap any enemy near the screen in the same pass. -/
theorem C8_bullet_enemy (wq : ℚ) (e : Enemy) (es E : List Enemy)
    (bs bs2 B : List Bullet) (s t : ℤ) :
    ((∃ b ∈ bs, bulletHitsEnemy b e) → (shootEnemy wq e bs).isSome = true) ∧
    (shootEnemy wq e bs = some bs2 →
      resolveHits wq (e :: es) bs s = resolveHits wq es bs2 (s + ENEMY_SCORE)) ∧
    ((resolveHits wq E B t).2.2 =
      t + ENEMY_SCORE * ((E.length : ℤ) - ((resolveHits wq E B t).1.length : ℤ))) ∧
    (∀ (yb : ℚ) (e2 : Enemy), e2.x < wq + 989 → ¬ bulletHitsEnemy ⟨wq + 999, yb⟩ e2) :=
  ⟨shootEnemy_isSome wq e bs, resolveHits_hit_head wq e es bs bs2 s,
   resolveHits_score wq E B t, fun yb e2 h => spent_bullet_no_hit wq yb e2 h⟩

/-- Claim C8, witness: on an 80-column screen, the bullet at (40, 5) hits the
enemy at (40, 5); the enemy is removed with one score bump and the spent
bullet at 1079 overlaps nothing on screen. -/
theorem C8_witness :
    (shootEnemy 80 e0 [b0]).isSome = true ∧
    resolveHits 80 [e0] [b0] 0 = resolveHits 80 [] [⟨1079, 5⟩] (0 + ENEMY_SCORE) ∧
    ¬ bulletHitsEnemy ⟨80 + 999, 5⟩ e0 := by
  have h40 : pyround (40 : ℚ) = 40 := by norm_num [pyround]
  have h5 : pyround (5 : ℚ) = 5 := by norm_num [pyround]
  have hhit : bulletHitsEnemy b0 e0 := by
    show rects_overlap (pyround 40) (pyround 5) 1 1 (pyround 40) (pyround 5)
      ENEMY_WIDTH ENEMY_HEIGHT
    rw [h40, h5]
    exact ⟨by decide, by decide, by decide, by decide⟩
  have hsome : shootEnemy 80 e0 [b0] = some [⟨1079, 5⟩] := by
    rw [shootEnemy, if_pos hhit]
    norm_num [b0]
  obtain ⟨h1, h2, h3, h4⟩ := C8_bullet_enemy 80 e0 [] [] [b0] [⟨1079, 5⟩] [] 0 0
  exact ⟨h1 ⟨b0, by simp, hhit⟩, h2 hsome, h4 5 e0 (by norm_num [e0])⟩

/-- Claim C3, witness: the amended draw-count rule applied to a concrete roll
state. -/
theorem C3_witness :
    (gRoll.warmup_cols ≤ 0 ∧ gRoll.pit_left ≤ 0 ∧ gRoll.cooldown ≤ 0) ∧
    (next_cell entH gRoll 1).2.2.ri =
      (if entH.randoms gRoll.ri < STEP_RATE then
        (if gRoll.elev = 0 ∨ gRoll.max_elev ≤ gRoll.elev then gRoll.ri + 1
         else gRoll.ri + 2)
      else if PIT_MIN ≤ pit_cap_of 1 ∧ entH.randoms (gRoll.ri + 1) < PIT_RATE then
        gRoll.ri + 2
      else if gRoll.edge_protect = 0 ∧ entH.randoms (gRoll.ri + 2) < CONE_RATE then
        gRoll.ri + 3
      else gRoll.ri + 4) :=
  ⟨by decide, C3_draw_counts entH gRoll 1 (by decide) (by decide) (by decide)⟩

end MoonBuggy
